import Mathlib

/-!
Verification of the Pylontech BMS console client (`custom_components/pylontech/pylontech.py`,
with the `pylontech_console` dialect modelled where it differs).

Lines of the console protocol are modelled as `List Char` (Python `str` of the
decoded ASCII line) and the raw socket stream as `List Nat` (byte values).
Python `int(...)` is modelled by `pyInt` (optional sign, decimal digits,
surrounding whitespace tolerated), `str.split()` by `pySplitWs`,
`str.split(":")` by `pySplitOnChar`, `str.replace(pat, "")` by `pyDelete`,
and `source[source.index(":") + 1 :]` by `afterFirstColon`.
Fallible Python code (exceptions: ValueError, IndexError, AttributeError)
is modelled with `Option`/`Except`. Float division is modelled exactly over `ℚ`.
-/

namespace PylontechSpec

/-- Characters of a string literal, used to write protocol lines. -/
def strL (s : String) : List Char := s.data

/-- Whitespace test used by Python `str.split()` and `int()` (ASCII whitespace). -/
def wsChar (c : Char) : Bool := c = ' ' || c = '\t' || c = '\r' || c = '\n'

/-- Boolean test that `p` is an initial segment of `s` (Python `startswith`). -/
def isPre {α : Type} [DecidableEq α] : List α → List α → Bool
  | [], _ => true
  | _ :: _, [] => false
  | a :: as, b :: bs => if a = b then isPre as bs else false

/-- Python `pat in s` substring test. -/
def hasInfix (s pat : List Char) : Bool :=
  match s with
  | [] => isPre pat []
  | _ :: t => isPre pat s || hasInfix t pat

/-- Accumulator for `pySplitWs`: current (reversed) token plus finished tokens. -/
def splitWsAux : List Char → List Char → List (List Char)
  | [], acc => if acc = [] then [] else [acc.reverse]
  | c :: cs, acc =>
    if wsChar c then
      if acc = [] then splitWsAux cs [] else acc.reverse :: splitWsAux cs []
    else splitWsAux cs (c :: acc)

/-- Python `str.split()`: tokens between whitespace runs, no empty tokens. -/
def pySplitWs (s : List Char) : List (List Char) := splitWsAux s []

/-- Python `str.split(c)` for a one-character separator: keeps empty pieces. -/
def pySplitOnChar (c : Char) : List Char → List (List Char)
  | [] => [[]]
  | x :: xs =>
    if x = c then [] :: pySplitOnChar c xs
    else
      match pySplitOnChar c xs with
      | [] => [[x]]
      | r :: rs => (x :: r) :: rs

/-- Strip leading and trailing whitespace (Python `int` tolerates it). -/
def trimWs (s : List Char) : List Char :=
  ((s.dropWhile wsChar).reverse.dropWhile wsChar).reverse

/-- Value of one decimal digit character. -/
def digToNat (c : Char) : Option Nat :=
  if '0' ≤ c ∧ c ≤ '9' then some (c.toNat - 48) else none

/-- Accumulating decimal evaluation of a digit string. -/
def digitsValAux : List Char → Nat → Option Nat
  | [], acc => some acc
  | c :: cs, acc =>
    match digToNat c with
    | none => none
    | some d => digitsValAux cs (acc * 10 + d)

/-- Value of a non-empty all-digit string, `none` otherwise. -/
def digitsVal (l : List Char) : Option Nat :=
  if l = [] then none else digitsValAux l 0

/-- Python `int(s)` for decimal literals: optional sign and digits,
surrounding whitespace allowed; `none` models the `ValueError`. -/
def pyInt (s : List Char) : Option Int :=
  match trimWs s with
  | '-' :: ds => (digitsVal ds).map fun n => -(n : Int)
  | '+' :: ds => (digitsVal ds).map fun n => (n : Int)
  | ds => (digitsVal ds).map fun n => (n : Int)

/-- Worker for `pyDelete`, structurally recursive on a fuel counter: a
non-empty pattern consumes at least one character per step, so fuel equal to
the string length never runs out. -/
def pyDeleteAux (pat : List Char) : Nat → List Char → List Char
  | 0, s => s
  | _ + 1, [] => []
  | fuel + 1, x :: xs =>
    if pat ≠ [] ∧ isPre pat (x :: xs) then pyDeleteAux pat fuel ((x :: xs).drop pat.length)
    else x :: pyDeleteAux pat fuel xs

/-- Python `s.replace(pat, "")` for a non-empty pattern: delete every
left-to-right non-overlapping occurrence of `pat`. -/
def pyDelete (pat s : List Char) : List Char := pyDeleteAux pat s.length s

/-- Python `source[source.index(":") + 1 :]`: everything after the first
colon; `none` models the `ValueError` when there is no colon. -/
def afterFirstColon : List Char → Option (List Char)
  | [] => none
  | c :: cs => if c = ':' then some cs else afterFirstColon cs

/-- Explicit `Option` bind used to model sequencing of fallible Python code. -/
def obind {α β : Type} (x : Option α) (f : α → Option β) : Option β :=
  match x with
  | none => none
  | some a => f a

/-- Option-valued traversal of a list, failing when any element fails. -/
def optMapM {α β : Type} (f : α → Option β) : List α → Option (List β)
  | [] => some []
  | x :: xs =>
    obind (f x) fun y =>
    obind (optMapM f xs) fun ys =>
    some (y :: ys)

/-- Proposition that `p` is an initial segment of `s`. -/
def laPre {α : Type} (p s : List α) : Prop := ∃ r, p ++ r = s

/-- Python `lookup if lookup else self.name`: an absent (or empty, hence
falsy) lookup argument falls back to the sensor name. -/
def labelOf (name : List Char) (lookup : Option (List Char)) : List Char :=
  match lookup with
  | some l => if l = [] then name else l
  | none => name

namespace Text

/-- `Text.set`: value is the raw string. -/
def set (source : List Char) : List Char := source

/-- `Sensor.setValue` for `Text`: decode the part after the first colon. -/
def setValue (source : List Char) : Option (List Char) :=
  (afterFirstColon source).map set

/-- `Text.fetch`: if the label occurs in the head line, store
`source[0].split(":")[1]` and pop the head line; otherwise leave the value
at its default `none` and leave the list alone. Result is
`(value, remaining lines)`; `none` models an uncaught exception. -/
def fetch (name : List Char) (lookup : Option (List Char))
    (source : List (List Char)) : Option (Option (List Char) × List (List Char)) :=
  match source with
  | [] => none
  | h :: t =>
    if hasInfix h (labelOf name lookup) then
      match (pySplitOnChar ':' h).get? 1 with
      | none => none
      | some v => some (some v, t)
    else some (none, h :: t)

end Text

namespace Boolean

/-- `Boolean.set`: true iff the raw string is `"Y"` or `"y"`. -/
def set (source : List Char) : Bool := source = strL "Y" || source = strL "y"

end Boolean

namespace Integer

/-- `Integer.set`: parsed base-10 integer. -/
def set (source : List Char) : Option Int := pyInt source

/-- `Integer.fetch`: like `Text.fetch` but parses the stored piece as an
integer (an unparsable piece is an exception, modelled `none`). -/
def fetch (name : List Char) (lookup : Option (List Char))
    (source : List (List Char)) : Option (Option Int × List (List Char)) :=
  match source with
  | [] => none
  | h :: t =>
    if hasInfix h (labelOf name lookup) then
      match (pySplitOnChar ':' h).get? 1 with
      | none => none
      | some v =>
        match pyInt v with
        | none => none
        | some n => some (some n, t)
    else some (none, h :: t)

end Integer

namespace Percent

/-- `Percent.set`: integer parsed after deleting `%`. -/
def set (source : List Char) : Option Int := pyInt (pyDelete (strL "%") source)

end Percent

namespace Current

/-- `Current.set`: `int(source) / divider`, falling back to
`int(source.replace("mA", "")) / divider` on a parse error. The Python
default divider is 1000; call sites pass it explicitly here. -/
def set (source : List Char) (divider : Int) : Option ℚ :=
  match pyInt source with
  | some n => some ((n : ℚ) / (divider : ℚ))
  | none => (pyInt (pyDelete (strL "mA") source)).map fun n => (n : ℚ) / (divider : ℚ)

/-- `Sensor.setValue` for `Current`: decode after the first colon with the
default divider 1000. -/
def setValue (source : List Char) : Option ℚ :=
  (afterFirstColon source).bind fun p => set p 1000

/-- `Current.fetch`: stores `int(source[0].split(":")[1].replace("mA", ""))`
without any division when the label matches. -/
def fetch (name : List Char) (lookup : Option (List Char))
    (source : List (List Char)) : Option (Option Int × List (List Char)) :=
  match source with
  | [] => none
  | h :: t =>
    if hasInfix h (labelOf name lookup) then
      match (pySplitOnChar ':' h).get? 1 with
      | none => none
      | some v =>
        match pyInt (pyDelete (strL "mA") v) with
        | none => none
        | some n => some (some n, t)
    else some (none, h :: t)

end Current

namespace Voltage

/-- `Voltage.set`: `int(source) / divider` (Python default divider 1000). -/
def set (source : List Char) (divider : Int) : Option ℚ :=
  (pyInt source).map fun n => (n : ℚ) / (divider : ℚ)

/-- `Voltage.setValue`: decode after the first colon with an explicit divider. -/
def setValue (source : List Char) (divider : Int) : Option ℚ :=
  (afterFirstColon source).bind fun p => set p divider

end Voltage

namespace ChargeAh

/-- `ChargeAh.set`: `int(source) / divider` (Python default divider 1000). -/
def set (source : List Char) (divider : Int) : Option ℚ :=
  (pyInt source).map fun n => (n : ℚ) / (divider : ℚ)

end ChargeAh

namespace ChargeWh

/-- `ChargeWh.set`: `int(source) / divider` (Python default divider 1). -/
def set (source : List Char) (divider : Int) : Option ℚ :=
  (pyInt source).map fun n => (n : ℚ) / (divider : ℚ)

end ChargeWh

namespace Temp

/-- `Temp.set`: `int(source) / 1000`, fixed divisor. -/
def set (source : List Char) : Option ℚ :=
  (pyInt source).map fun n => (n : ℚ) / 1000

/-- `Sensor.setValue` for `Temp`: decode after the first colon. -/
def setValue (source : List Char) : Option ℚ :=
  (afterFirstColon source).bind set

end Temp

/-! ## Response frame reader (`PylontechBMS._exec_cmd` read loop) -/

/-- The two end-of-response sentinel strings (`_END_PROMPTS`). -/
def endPrompts : List (List Char) := [strL "Command completed successfully", strL "$$"]

/-- The byte sequence of the console prompt token `pylon>`. -/
def promptBytes : List Nat := (strL "pylon>").map Char.toNat

/-- Python `bytes.decode("ascii")` for bytes known to be ASCII. -/
def asciiDecode (bs : List Nat) : List Char := bs.map Char.ofNat

/-- State of the frame-reading loop: completed output lines and the byte
buffer (`linebytes`) of the line being accumulated. -/
structure RState where
  lines : List (List Char)
  cur : List Nat
  deriving DecidableEq

/-- One byte of the inner `for i in data` loop: terminator bytes (13, 10)
flush a non-empty buffer into a decoded line (dropped when it is one of the
sentinels); any other byte is appended to the buffer. -/
def stepByte (st : RState) (b : Nat) : RState :=
  if b = 13 ∨ b = 10 then
    if st.cur = [] then st
    else
      let line := asciiDecode st.cur
      { lines := if line ∈ endPrompts then st.lines else st.lines ++ [line], cur := [] }
  else { st with cur := st.cur ++ [b] }

/-- Process one chunk returned by `reader.read(120)`. -/
def runChunk (st : RState) (chunk : List Nat) : RState := chunk.foldl stepByte st

/-- Output lines after flushing a (non-empty) buffer: the decoded line is
appended unless it is one of the sentinels. -/
def emit (ls : List (List Char)) (cur : List Nat) : List (List Char) :=
  if asciiDecode cur ∈ endPrompts then ls else ls ++ [asciiDecode cur]

/-- The `while linebytes != b"pylon>"` loop over a given chunking of the
stream: before each read the buffer is compared with the prompt bytes. -/
def readFrame : RState → List (List Nat) → RState
  | st, [] => st
  | st, c :: cs => if st.cur = promptBytes then st else readFrame (runChunk st c) cs

/-- A terminator as emitted by the device: LF, CR, or CR+LF. -/
def isSep (t : List Nat) : Prop := t = [10] ∨ t = [13] ∨ t = [13, 10]

instance : DecidablePred isSep := fun t =>
  decidable_of_iff (t = [10] ∨ t = [13] ∨ t = [13, 10]) Iff.rfl

/-- Encoding of a response body: each line followed by its terminator. -/
def encodeResp (ps : List (List Nat × List Nat)) : List Nat :=
  (ps.map fun p => p.1 ++ p.2).flatten

/-! ## Framing validation (`_exec_cmd` tail) -/

/-- Kinds of exception raised by the validation tail of `_exec_cmd`. -/
inductive ExecError
  | indexErr
  | valueErr
  deriving DecidableEq

/-- The two `lines.pop(0)` checks of `_exec_cmd`: the first line must be the
echoed command and the second the literal `"@"`; both are removed. An
empty-enough list is an `IndexError`, a mismatch a `ValueError`. -/
def validateFrame (cmd : List Char) (lines : List (List Char)) :
    Except ExecError (List (List Char)) :=
  match lines with
  | [] => .error .indexErr
  | l1 :: rest =>
    if l1 ≠ cmd then .error .valueErr
    else
      match rest with
      | [] => .error .indexErr
      | l2 :: rest2 => if l2 ≠ strL "@" then .error .valueErr else .ok rest2

/-- A command wrapper: validate the framed lines, then hand the remaining
lines to the command-specific parser (which never runs on a framing error). -/
def execParse {β : Type} (cmd : List Char) (parse : List (List Char) → Option β)
    (lines : List (List Char)) : Option β :=
  match validateFrame cmd lines with
  | .error _ => none
  | .ok body => parse body

/-! ## Command parser: `unit` -/

/-- Parsed fields of one `unit` module row (`UnitValues`). -/
structure UnitVals where
  position : Int
  volt : ℚ
  curr : ℚ
  temp : ℚ
  cell_temp_low : ℚ
  cell_temp_high : ℚ
  cell_volt_low : ℚ
  cell_volt_high : ℚ
  base_state : List Char
  volt_state : List Char
  temp_state : List Char
  charge_ah_perc : Int
  charge_ah : ℚ
  charge_wh_perc : Int
  charge_wh_wh : ℚ
  deriving DecidableEq

/-- `UnitValues.__init__`: split the row, parse the 16 used token positions
(token 13 is skipped by the source), and replace the decoded position with
`nr_of_units - position`. -/
def unitValues (nr : Int) (line : List Char) : Option UnitVals :=
  let chunks := pySplitWs line
  obind (chunks.get? 0) fun c0 =>
  obind (pyInt c0) fun rawPos =>
  obind (chunks.get? 1) fun c1 =>
  obind (Voltage.set c1 1000) fun volt =>
  obind (chunks.get? 2) fun c2 =>
  obind (Current.set c2 1000) fun curr =>
  obind (chunks.get? 3) fun c3 =>
  obind (Temp.set c3) fun temp =>
  obind (chunks.get? 4) fun c4 =>
  obind (Temp.set c4) fun ctl =>
  obind (chunks.get? 5) fun c5 =>
  obind (Temp.set c5) fun cth =>
  obind (chunks.get? 6) fun c6 =>
  obind (Voltage.set c6 1000) fun cvl =>
  obind (chunks.get? 7) fun c7 =>
  obind (Voltage.set c7 1000) fun cvh =>
  obind (chunks.get? 8) fun c8 =>
  obind (chunks.get? 9) fun c9 =>
  obind (chunks.get? 10) fun c10 =>
  obind (chunks.get? 11) fun c11 =>
  obind (Percent.set c11) fun cap =>
  obind (chunks.get? 12) fun c12 =>
  obind (ChargeAh.set c12 1000) fun cah =>
  obind (chunks.get? 14) fun c14 =>
  obind (Percent.set c14) fun cwp =>
  obind (chunks.get? 15) fun c15 =>
  obind (ChargeWh.set c15 1) fun cwh =>
  some (UnitVals.mk (nr - rawPos) volt curr temp ctl cth cvl cvh
    (Text.set c8) (Text.set c9) (Text.set c10) cap cah cwp cwh)

/-- Result of the `unit` command (`UnitCommand`). -/
structure UnitCmd where
  values : List UnitVals
  deriving DecidableEq

/-- The `for line in lines[2:]` loop of `UnitCommand.__init__`: each parsed
row is inserted at position 0 of the accumulator. -/
def unitLoop (nr : Int) : List (List Char) → List UnitVals → Option (List UnitVals)
  | [], acc => some acc
  | l :: ls, acc =>
    obind (unitValues nr l) fun v =>
    unitLoop nr ls (v :: acc)

/-- `UnitCommand.__init__`: `nr_of_units = len(lines) - 1`, rows are
`lines[2:]` prepended one by one. -/
def unitCmd (lines : List (List Char)) : Option UnitCmd :=
  obind (unitLoop ((lines.length : Int) - 1) (lines.drop 2) []) fun vs =>
  some ⟨vs⟩

/-! ## Command parser: `pwr` -/

/-- Parsed fields of the `pwr` command (`PwrCommand`). -/
structure Pwr where
  avg_temp : ℚ
  dc_voltage : ℚ
  bat_voltage : ℚ
  volt : ℚ
  curr : ℚ
  temp : ℚ
  cell_temp_low : ℚ
  cell_temp_high : ℚ
  cell_volt_low : ℚ
  cell_bolt_high : ℚ
  unit_temp_low : ℚ
  unit_temp_high : ℚ
  unit_volt_low : ℚ
  unit_volt_high : ℚ
  base_state : List Char
  volt_state : List Char
  curr_state : List Char
  temp_state : List Char
  charge_ah_perc : Int
  charge_ah : ℚ
  charge_wh_perc : Int
  charge_wh_wh : ℚ
  cell_volt_state : List Char
  cell_temp_state : List Char
  unit_volt_state : List Char
  unit_temp_state : List Char
  error_code : List Char
  deriving DecidableEq

/-- `PwrCommand.__init__`: three `setValue` header lines (indices 0-2), then
line 4 split into tokens read at the fixed offsets 0-16, 18-19, 23-27. -/
def pwrCommand (lines : List (List Char)) : Option Pwr :=
  obind (lines.get? 0) fun l0 =>
  obind (Temp.setValue l0) fun avg_temp =>
  obind (lines.get? 1) fun l1 =>
  obind (Voltage.setValue l1 1000) fun dc_voltage =>
  obind (lines.get? 2) fun l2 =>
  obind (Voltage.setValue l2 1000) fun bat_voltage =>
  obind (lines.get? 4) fun l4 =>
  let chunks := pySplitWs l4
  obind (chunks.get? 0) fun c0 =>
  obind (Voltage.set c0 1000) fun volt =>
  obind (chunks.get? 1) fun c1 =>
  obind (Current.set c1 1000) fun curr =>
  obind (chunks.get? 2) fun c2 =>
  obind (Temp.set c2) fun temp =>
  obind (chunks.get? 3) fun c3 =>
  obind (Temp.set c3) fun ctl =>
  obind (chunks.get? 4) fun c4 =>
  obind (Temp.set c4) fun cth =>
  obind (chunks.get? 5) fun c5 =>
  obind (Voltage.set c5 1000) fun cvl =>
  obind (chunks.get? 6) fun c6 =>
  obind (Voltage.set c6 1000) fun cvh =>
  obind (chunks.get? 7) fun c7 =>
  obind (Temp.set c7) fun utl =>
  obind (chunks.get? 8) fun c8 =>
  obind (Temp.set c8) fun uth =>
  obind (chunks.get? 9) fun c9 =>
  obind (Voltage.set c9 1000) fun uvl =>
  obind (chunks.get? 10) fun c10 =>
  obind (Voltage.set c10 1000) fun uvh =>
  obind (chunks.get? 11) fun c11 =>
  obind (chunks.get? 12) fun c12 =>
  obind (chunks.get? 13) fun c13 =>
  obind (chunks.get? 14) fun c14 =>
  obind (chunks.get? 15) fun c15 =>
  obind (Percent.set c15) fun cap =>
  obind (chunks.get? 16) fun c16 =>
  obind (ChargeAh.set c16 1000) fun cah =>
  obind (chunks.get? 18) fun c18 =>
  obind (Percent.set c18) fun cwp =>
  obind (chunks.get? 19) fun c19 =>
  obind (ChargeWh.set c19 1) fun cwh =>
  obind (chunks.get? 23) fun c23 =>
  obind (chunks.get? 24) fun c24 =>
  obind (chunks.get? 25) fun c25 =>
  obind (chunks.get? 26) fun c26 =>
  obind (chunks.get? 27) fun c27 =>
  some (Pwr.mk avg_temp dc_voltage bat_voltage volt curr temp ctl cth cvl cvh
    utl uth uvl uvh (Text.set c11) (Text.set c12) (Text.set c13) (Text.set c14)
    cap cah cwp cwh (Text.set c23) (Text.set c24) (Text.set c25) (Text.set c26)
    (Text.set c27))

/-! ## Command parser: `bat` -/

/-- Parsed fields of one `bat` cell row (`BatValues`): the owning module
index is supplied by the caller, token 0 of the row is skipped. -/
structure BatCell where
  unit : Nat
  volt : ℚ
  curr : ℚ
  tempr : ℚ
  v_state : List Char
  t_state : List Char
  charge_ah_perc : Int
  charge_ah : ℚ
  charge_wh_perc : Int
  charge_wh : ℚ
  bal : List Char
  deriving DecidableEq

/-- `BatValues.__init__`. -/
def batValues (unit : Nat) (line : List Char) : Option BatCell :=
  let chunks := pySplitWs line
  obind (chunks.get? 1) fun c1 =>
  obind (Voltage.set c1 1000) fun volt =>
  obind (chunks.get? 2) fun c2 =>
  obind (Current.set c2 1000) fun curr =>
  obind (chunks.get? 3) fun c3 =>
  obind (Temp.set c3) fun tempr =>
  obind (chunks.get? 4) fun c4 =>
  obind (chunks.get? 5) fun c5 =>
  obind (chunks.get? 6) fun c6 =>
  obind (Percent.set c6) fun cap =>
  obind (chunks.get? 7) fun c7 =>
  obind (ChargeAh.set c7 1000) fun cah =>
  obind (chunks.get? 8) fun c8 =>
  obind (Percent.set c8) fun cwp =>
  obind (chunks.get? 9) fun c9 =>
  obind (ChargeWh.set c9 1000) fun cwh =>
  obind (chunks.get? 10) fun c10 =>
  some (BatCell.mk unit volt curr tempr (Text.set c4) (Text.set c5) cap cah cwp cwh
    (Text.set c10))

/-- Result of the `bat` command (`BatCommand`). -/
structure Bat where
  avg_temp : ℚ
  charge_curr : ℚ
  discharge_curr : ℚ
  b_state : List Char
  bal_volt : ℚ
  values : List BatCell
  deriving DecidableEq

/-- The `for line in lines[7:]` loop of `BatCommand.__init__`: the counter
`cell` starts at `len(lines) - 8` and decrements; each row's module index is
`int(cell / 15)`. Within the loop `cell` never goes below 0 (the counter
reaches 0 exactly at the last row), so `Nat` arithmetic is faithful. -/
def batRows : List (List Char) → Nat → Option (List BatCell)
  | [], _ => some []
  | l :: ls, cell =>
    obind (batValues (cell / 15) l) fun v =>
    obind (batRows ls (cell - 1)) fun rest =>
    some (v :: rest)

/-- `BatCommand.__init__`: five `setValue` header lines (indices 1-5, with
the balance voltage using divider 10), then the per-cell rows. -/
def batCommand (lines : List (List Char)) : Option Bat :=
  obind (lines.get? 1) fun l1 =>
  obind (Temp.setValue l1) fun avg_temp =>
  obind (lines.get? 2) fun l2 =>
  obind (Current.setValue l2) fun charge_curr =>
  obind (lines.get? 3) fun l3 =>
  obind (Current.setValue l3) fun discharge_curr =>
  obind (lines.get? 4) fun l4 =>
  obind (Text.setValue l4) fun b_state =>
  obind (lines.get? 5) fun l5 =>
  obind (Voltage.setValue l5 10) fun bal_volt =>
  obind (batRows (lines.drop 7) (lines.length - 8)) fun values =>
  some (Bat.mk avg_temp charge_curr discharge_curr b_state bal_volt values)

/-! ## Command parser: `info` -/

/-- The 22 label-fetched header fields of `InfoCommand`. -/
structure InfoHeader where
  device_address : Option Int
  manufacturer : Option (List Char)
  device_name : Option (List Char)
  board_version : Option (List Char)
  hard_version : Option (List Char)
  main_sw_version : Option (List Char)
  sw_version : Option (List Char)
  boot_version : Option (List Char)
  comm_version : Option (List Char)
  release_date : Option (List Char)
  barcode : Option (List Char)
  pcba_barcode : Option (List Char)
  module_barcode : Option (List Char)
  pwr_supply_barcode : Option (List Char)
  device_test_time : Option (List Char)
  specification : Option (List Char)
  cell_number : Option Int
  max_discharge_current : Option Int
  max_charge_current : Option Int
  shut_circuit : Option (List Char)
  relay_feedback : Option (List Char)
  new_board : Option (List Char)
  deriving DecidableEq

/-- The fetch phase of `InfoCommand.__init__`: the 22 `fetch` calls in source
order, threading the pending line list; returns the fields and what is left
of the lines. -/
def infoFetchPhase (lines : List (List Char)) :
    Option (InfoHeader × List (List Char)) :=
  obind (Integer.fetch (strL "Device address") none lines) fun r1 =>
  obind (Text.fetch (strL "Manufacturer") none r1.2) fun r2 =>
  obind (Text.fetch (strL "Device name") none r2.2) fun r3 =>
  obind (Text.fetch (strL "Board version") none r3.2) fun r4 =>
  obind (Text.fetch (strL "Hard version") (some (strL "Hard  version")) r4.2) fun r5 =>
  obind (Text.fetch (strL "Main Soft version") none r5.2) fun r6 =>
  obind (Text.fetch (strL "Soft version") (some (strL "Soft  version")) r6.2) fun r7 =>
  obind (Text.fetch (strL "Boot version") (some (strL "Boot  version")) r7.2) fun r8 =>
  obind (Text.fetch (strL "Comm version") none r8.2) fun r9 =>
  obind (Text.fetch (strL "Release Date") none r9.2) fun r10 =>
  obind (Text.fetch (strL "Barcode") none r10.2) fun r11 =>
  obind (Text.fetch (strL "PCBA Barcode") none r11.2) fun r12 =>
  obind (Text.fetch (strL "Module Barcode") none r12.2) fun r13 =>
  obind (Text.fetch (strL "PowerSupply Barcode") none r13.2) fun r14 =>
  obind (Text.fetch (strL "Device Test Time") none r14.2) fun r15 =>
  obind (Text.fetch (strL "Specification") none r15.2) fun r16 =>
  obind (Integer.fetch (strL "Cell Number") none r16.2) fun r17 =>
  obind (Current.fetch (strL "Max Discharge Curr") (some (strL "Max Dischg Curr")) r17.2)
    fun r18 =>
  obind (Current.fetch (strL "Max Charge Curr") none r18.2) fun r19 =>
  obind (Text.fetch (strL "Shut Circuit") none r19.2) fun r20 =>
  obind (Text.fetch (strL "Relay Feedback") none r20.2) fun r21 =>
  obind (Text.fetch (strL "New Board") none r21.2) fun r22 =>
  some (InfoHeader.mk r1.1 r2.1 r3.1 r4.1 r5.1 r6.1 r7.1 r8.1 r9.1 r10.1 r11.1
    r12.1 r13.1 r14.1 r15.1 r16.1 r17.1 r18.1 r19.1 r20.1 r21.1 r22.1, r22.2)

/-- The trailing `for line in source` loop of `InfoCommand.__init__`: a line
starting with `Module` prepends its third whitespace token to the module
list, a line starting with `PCBA` likewise to the PCBA list (a short line is
an `IndexError`, modelled `none`). -/
def bmuLoop : List (List Char) → List (List Char) × List (List Char) →
    Option (List (List Char) × List (List Char))
  | [], acc => some acc
  | l :: ls, acc =>
    obind
      (if isPre (strL "Module") l then
        obind ((pySplitWs l).get? 2) fun t => some (t :: acc.1, acc.2)
      else some acc) fun acc1 =>
    obind
      (if isPre (strL "PCBA") l then
        obind ((pySplitWs l).get? 2) fun t => some (acc1.1, t :: acc1.2)
      else some acc1) fun acc2 =>
    bmuLoop ls acc2

/-- Result of the `info` command (`InfoCommand`): the fetched header fields
plus the two per-module serial lists. -/
structure Info where
  header : InfoHeader
  bmu_modules : List (List Char)
  bmu_pcbas : List (List Char)
  deriving DecidableEq

/-- `InfoCommand.__init__`: fetch phase, then the Module/PCBA scan over the
remaining lines. -/
def infoCommand (lines : List (List Char)) : Option Info :=
  obind (infoFetchPhase lines) fun hr =>
  obind (bmuLoop hr.2 ([], [])) fun mp =>
  some ⟨hr.1, mp.1, mp.2⟩

/-! ## Session manager (`PylontechBMS`, `PylontechConsole`) -/

/-- Mutable state of a `PylontechBMS` object: the stream handles (abstracted
to presence) and the `bmus` module-serial tuple. -/
structure PyBMS where
  reader : Option Unit
  writer : Option Unit
  bmus : List (List Char)
  deriving DecidableEq

/-- `PylontechBMS.connect`: installs fresh reader and writer handles. -/
def bmsConnect (st : PyBMS) : PyBMS := { st with reader := some (), writer := some () }

/-- `PylontechBMS.disconnect`: when a writer is present, close it and clear
both handles; otherwise do nothing. Never raises. -/
def bmsDisconnect (st : PyBMS) : PyBMS :=
  match st.writer with
  | none => st
  | some _ => { st with reader := none, writer := none }

/-- State of a `PylontechConsole` object (no `bmus` attribute). -/
structure ConsoleSt where
  reader : Option Unit
  writer : Option Unit
  deriving DecidableEq

/-- `PylontechConsole.connect`. -/
def consoleConnect (_st : ConsoleSt) : ConsoleSt := ⟨some (), some ()⟩

/-- `PylontechConsole.disconnect`: guarded on the READER, but clears only
the WRITER; with a reader present and no writer, `self.writer.close()` is an
`AttributeError` on `None`, modelled as `none`. -/
def consoleDisconnect (st : ConsoleSt) : Option ConsoleSt :=
  match st.reader with
  | none => some st
  | some _ =>
    match st.writer with
    | none => none
    | some _ => some ⟨st.reader, none⟩

/-- `PylontechBMS.info()`: parse the framed response and store
`tuple(result.bmu_modules)` into `self.bmus`; on any exception the state is
left unchanged (the assignment is never reached). -/
def infoCall (st : PyBMS) (frame : List (List Char)) : Option (Info × PyBMS) :=
  (execParse (strL "info") infoCommand frame).map fun r =>
    (r, { st with bmus := r.bmu_modules })

/-- `PylontechBMS.pwr()`: parses the framed response, touching no state. -/
def pwrCall (st : PyBMS) (frame : List (List Char)) : Option (Pwr × PyBMS) :=
  (execParse (strL "pwr") pwrCommand frame).map fun r => (r, st)

/-- `PylontechBMS.unit()`: parses the framed response, touching no state. -/
def unitCall (st : PyBMS) (frame : List (List Char)) : Option (UnitCmd × PyBMS) :=
  (execParse (strL "unit") unitCmd frame).map fun r => (r, st)

/-- `PylontechBMS.bat()`: parses the framed response, touching no state. -/
def batCall (st : PyBMS) (frame : List (List Char)) : Option (Bat × PyBMS) :=
  (execParse (strL "bat") batCommand frame).map fun r => (r, st)

/-! ## Concrete protocol samples used to instantiate the theorems -/

/-- Sample validated `unit` response: two header lines and two module rows
whose raw position tokens are 0 and 1. -/
def exUnitLines : List (List Char) :=
  [strL "h1", strL "h2",
   strL "0 50000 1500 25000 24000 26000 3300 3400 Normal Normal Normal 95% 50000 X 94% 4800",
   strL "1 50000 1500 25000 24000 26000 3300 3400 Normal Normal Normal 95% 50000 X 94% 4800"]

/-- Sample `info` trailing lines in the layout used by the specification's
module-reversal example (serial as fourth whitespace token). -/
def exModuleLines : List (List Char) :=
  [strL "Module 1 : SERIAL_C", strL "Module 2 : SERIAL_B", strL "Module 3 : SERIAL_A"]

/-- Sample validated `bat` response: five labelled header lines (plus two
skipped lines) and one cell row. -/
def exBatBody : List (List Char) :=
  [strL "junk", strL "T : 25000", strL "C C : 1500", strL "D D : 1200",
   strL "S : OK", strL "V : 500", strL "junk2",
   strL "0 3300 100 25000 N N 50% 10000 60% 20000 B"]

/-- Parsed sample `bat` record. -/
def exBat : Bat := (batCommand exBatBody).get (by decide)

/-- First (only) cell of the sample `bat` record. -/
def exBatCell : BatCell := (exBat.values.get? 0).get (by decide)

/-- Sample connected session state with a stale `bmus` tuple. -/
def exSt : PyBMS := ⟨some (), some (), [strL "z"]⟩

/-- Sample framed `info` response whose single body line matches no label. -/
def exInfoFrame : List (List Char) := [strL "info", strL "@", strL "x"]

/-- Sample framed `pwr` response: echo, ack, three labelled header lines,
one skipped line, and the 28-token data line. -/
def exPwrFrame : List (List Char) :=
  [strL "pwr", strL "@", strL "A : 25000", strL "B : 52000", strL "C : 51000",
   strL "skip",
   strL "50000 1500 25000 24000 26000 3300 3400 24500 25500 49000 51000 N N N N 50% 10000 x 60% 20000 a b c N N N N E0"]

/-- Sample framed `unit` response. -/
def exUnitFrame : List (List Char) :=
  [strL "unit", strL "@", strL "h1", strL "h2",
   strL "0 50000 1500 25000 24000 26000 3300 3400 Normal Normal Normal 95% 50000 X 94% 4800"]

/-- Sample framed `bat` response. -/
def exBatFrame : List (List Char) := strL "bat" :: strL "@" :: exBatBody

/-- Result and post-state of `info()` on the sample state and frame. -/
def exInfoPair : Info × PyBMS := (infoCall exSt exInfoFrame).get (by decide)

/-- Result and post-state of `pwr()` on the sample state and frame. -/
def exPwrPair : Pwr × PyBMS := (pwrCall exSt exPwrFrame).get (by decide)

/-- Result and post-state of `unit()` on the sample state and frame. -/
def exUnitPair : UnitCmd × PyBMS := (unitCall exSt exUnitFrame).get (by decide)

/-- Result and post-state of `bat()` on the sample state and frame. -/
def exBatPair : Bat × PyBMS := (batCall exSt exBatFrame).get (by decide)

/-- Parsed sample `unit` record. -/
def exUnit : UnitCmd := (unitCmd exUnitLines).get (by decide)

/-- First value of the sample `unit` record. -/
def exUnitVal : UnitVals := (exUnit.values.get? 0).get (by decide)

/-- Parsed `info` record of the sample module lines. -/
def exInfoRec : Info := (infoCommand exModuleLines).get (by decide)

/-! ## General lemmas -/

lemma obind_eq_some {α β : Type} {x : Option α} {f : α → Option β} {b : β} :
    obind x f = some b ↔ ∃ a, x = some a ∧ f a = some b := by
  cases x <;> simp [obind]

/-! ## Claim C4 -/

/-- Claim C4: a framed response whose first line is not the echoed command,
or whose second line is not the literal `@`, makes `_exec_cmd` raise the
framing `ValueError` and no command parser ever runs; when both match, the
two lines are removed and the rest is handed to the parser. -/
theorem c4_framing_validation (cmd l1 l2 : List Char) (rest : List (List Char)) :
    ((l1 ≠ cmd ∨ l2 ≠ strL "@") →
      validateFrame cmd (l1 :: l2 :: rest) = .error .valueErr ∧
      ∀ (β : Type) (parse : List (List Char) → Option β),
        execParse cmd parse (l1 :: l2 :: rest) = none) ∧
    (l1 = cmd → l2 = strL "@" →
      validateFrame cmd (l1 :: l2 :: rest) = .ok rest ∧
      ∀ (β : Type) (parse : List (List Char) → Option β),
        execParse cmd parse (l1 :: l2 :: rest) = parse rest) := by
  constructor
  · intro h
    have hv : validateFrame cmd (l1 :: l2 :: rest) = .error .valueErr := by
      rcases h with h | h
      · simp [validateFrame, h]
      · by_cases h1 : l1 = cmd
        · simp [validateFrame, h1, h]
        · simp [validateFrame, h1]
    exact ⟨hv, fun β parse => by simp [execParse, hv]⟩
  · intro h1 h2
    have hv : validateFrame cmd (l1 :: l2 :: rest) = .ok rest := by
      simp [validateFrame, h1, h2]
    exact ⟨hv, fun β parse => by simp [execParse, hv]⟩

/-- Witness for C4 at concrete frames: a wrong echo line is rejected with
the framing error (and the `info` parser is never consulted), while a
well-formed `unit` frame is reduced to its body. -/
theorem c4_framing_validation_witness :
    (validateFrame (strL "info") [strL "oops", strL "@", strL "x"] = .error .valueErr ∧
      execParse (strL "info") infoCommand [strL "oops", strL "@", strL "x"] = none) ∧
    (validateFrame (strL "unit") [strL "unit", strL "@", strL "x"] = .ok [strL "x"] ∧
      execParse (strL "unit") unitCmd [strL "unit", strL "@", strL "x"] = unitCmd [strL "x"]) := by
  constructor
  · have h := (c4_framing_validation (strL "info") (strL "oops") (strL "@") [strL "x"]).1
      (by decide)
    exact ⟨h.1, h.2 Info infoCommand⟩
  · have h := (c4_framing_validation (strL "unit") (strL "unit") (strL "@") [strL "x"]).2
      (by decide) (by decide)
    exact ⟨h.1, h.2 UnitCmd unitCmd⟩

/-! ## Claim C5 -/

/-- Claim C5: the decoder `set` operations yield the documented scalars:
`Current` divides by the divider (tolerating an `mA` suffix), `Voltage`
honors an explicit divider, `Percent` strips `%`, `Boolean` is true exactly
on `Y`/`y`, and `Temp` always divides the parsed integer by 1000. -/
theorem c5_decoder_values :
    Current.set (strL "1500") 1000 = some (3 / 2 : ℚ) ∧
    Current.set (strL "1500mA") 1000 = some (3 / 2 : ℚ) ∧
    Voltage.set (strL "52000") 10 = some (5200 : ℚ) ∧
    Percent.set (strL "87%") = some 87 ∧
    Boolean.set (strL "Y") = true ∧
    Boolean.set (strL "n") = false ∧
    Boolean.set (strL "x") = false ∧
    ∀ (s : List Char) (n : Int), pyInt s = some n → Temp.set s = some ((n : ℚ) / 1000) := by
  refine ⟨?_, ?_, ?_, by decide, by decide, by decide, by decide, ?_⟩
  · have h : pyInt (strL "1500") = some 1500 := by decide
    simp [Current.set, h]
    norm_num
  · have h1 : pyInt (strL "1500mA") = none := by decide
    have h2 : pyInt (pyDelete (strL "mA") (strL "1500mA")) = some 1500 := by decide
    simp [Current.set, h1, h2]
    norm_num
  · have h : pyInt (strL "52000") = some 52000 := by decide
    simp [Voltage.set, h]
    norm_num
  · intro s n h
    simp [Temp.set, h]

/-- Witness for C5's general `Temp` clause at the raw string `25000`. -/
theorem c5_decoder_values_witness :
    pyInt (strL "25000") = some 25000 ∧ Temp.set (strL "25000") = some ((25000 : ℚ) / 1000) :=
  ⟨by decide, c5_decoder_values.2.2.2.2.2.2.2 (strL "25000") 25000 (by decide)⟩

/-! ## Claim C6 -/

lemma splitOnChar_no_sep {c : Char} : ∀ {post : List Char}, c ∉ post →
    pySplitOnChar c post = [post] := by
  intro post
  induction post with
  | nil => intro _; rfl
  | cons x xs ih =>
    intro h
    simp only [List.mem_cons, not_or] at h
    rw [pySplitOnChar, if_neg fun hh => h.1 hh.symm, ih h.2]

lemma splitOnChar_first {c : Char} : ∀ {pre : List Char} (post : List Char), c ∉ pre →
    pySplitOnChar c (pre ++ c :: post) = pre :: pySplitOnChar c post := by
  intro pre
  induction pre with
  | nil =>
    intro post _
    rw [List.nil_append, pySplitOnChar, if_pos rfl]
  | cons x xs ih =>
    intro post h
    simp only [List.mem_cons, not_or] at h
    rw [List.cons_append, pySplitOnChar, if_neg fun hh => h.1 hh.symm, ih post h.2]

lemma splitOnChar_head (c : Char) : ∀ (s : List Char),
    ∃ rest, pySplitOnChar c s = (s.takeWhile fun x => decide (x ≠ c)) :: rest := by
  intro s
  induction s with
  | nil => exact ⟨[], rfl⟩
  | cons x xs ih =>
    by_cases hx : x = c
    · subst hx
      refine ⟨pySplitOnChar x xs, ?_⟩
      rw [pySplitOnChar, if_pos rfl]
      simp [List.takeWhile_cons]
    · obtain ⟨rest, hrest⟩ := ih
      refine ⟨rest, ?_⟩
      rw [pySplitOnChar, if_neg hx, hrest]
      simp [List.takeWhile_cons, hx]

/-- Counterexample for C6: on the multi-colon head line `"T : 12:34"`
(label `"T"` present), `fetch` stores `" 12"` — the `split(":")[1]` segment
between the first and second colon — while the portion after the `:`
separator is `" 12:34"`, so the claim's described stored value is wrong. -/
theorem c6_fetch_counterexample :
    Text.fetch (strL "T") none [strL "T : 12:34"] = some (some (strL " 12"), []) ∧
    afterFirstColon (strL "T : 12:34") = some (strL " 12:34") ∧
    strL " 12" ≠ strL " 12:34" :=
  ⟨by decide, by decide, by decide⟩

/-- Claim C6 as amended: when the looked-up label is absent from the head
line, `fetch` leaves the value at its default `none` and does not consume
the head line; when the label is present, it stores `split(":")[1]` — the
text between the first colon and the next colon (to the end of the line
when there is no second colon) — and removes exactly the head line (for
`Text` the raw segment, for `Integer` its parsed integer); a
label-containing head line without any colon raises an `IndexError`. -/
theorem c6_fetch_behavior (name h : List Char) (t : List (List Char)) (pre post : List Char) :
    (hasInfix h name = false →
      Text.fetch name none (h :: t) = some (none, h :: t) ∧
      Integer.fetch name none (h :: t) = some (none, h :: t)) ∧
    (hasInfix h name = true → h = pre ++ ':' :: post → (':' ∉ pre) →
      Text.fetch name none (h :: t) =
        some (some (post.takeWhile fun c => decide (c ≠ ':')), t) ∧
      ∀ n : Int, pyInt (post.takeWhile fun c => decide (c ≠ ':')) = some n →
        Integer.fetch name none (h :: t) = some (some n, t)) ∧
    (hasInfix h name = true → (':' ∉ h) →
      Text.fetch name none (h :: t) = none ∧
      Integer.fetch name none (h :: t) = none) := by
  refine ⟨?_, ?_, ?_⟩
  · intro hf
    constructor <;> simp [Text.fetch, Integer.fetch, labelOf, hf]
  · intro hf hsplit hpre
    have hsp : (pySplitOnChar ':' h)[1]? =
        some (post.takeWhile fun c => decide (c ≠ ':')) := by
      subst hsplit
      rw [splitOnChar_first post hpre]
      obtain ⟨rest, hrest⟩ := splitOnChar_head ':' post
      rw [List.getElem?_cons_succ, hrest, List.getElem?_cons_zero]
    constructor
    · simp [Text.fetch, labelOf, hf, hsp]
    · intro n hn
      simp only [ne_eq, decide_not] at hn
      simp [Integer.fetch, labelOf, hf, hsp, hn]
  · intro hf hno
    have hsp : (pySplitOnChar ':' h)[1]? = none := by
      rw [splitOnChar_no_sep hno]
      rfl
    constructor
    · simp [Text.fetch, labelOf, hf, hsp]
    · simp [Integer.fetch, labelOf, hf, hsp]

/-- Witness for C6: a non-matching head line is kept with the value unset; a
matching multi-colon line is consumed with the between-colons segment
stored (and parsed by the integer variant); a matching line without a colon
raises. -/
theorem c6_fetch_behavior_witness :
    (Text.fetch (strL "Volt") none [strL "nope"] = some (none, [strL "nope"]) ∧
      Integer.fetch (strL "Volt") none [strL "nope"] = some (none, [strL "nope"])) ∧
    (Text.fetch (strL "Volt") none [strL "Volt : 7:8", strL "z"] =
        some (some (strL " 7"), [strL "z"]) ∧
      Integer.fetch (strL "Volt") none [strL "Volt : 7:8", strL "z"] =
        some (some 7, [strL "z"])) ∧
    (Text.fetch (strL "Volt") none [strL "Voltx"] = none ∧
      Integer.fetch (strL "Volt") none [strL "Voltx"] = none) := by
  refine ⟨(c6_fetch_behavior (strL "Volt") (strL "nope") [] [] []).1 (by decide), ?_, ?_⟩
  · have h := (c6_fetch_behavior (strL "Volt") (strL "Volt : 7:8") [strL "z"]
      (strL "Volt ") (strL " 7:8")).2.1 (by decide) (by decide) (by decide)
    exact ⟨h.1.trans (by decide), h.2 7 (by decide)⟩
  · exact (c6_fetch_behavior (strL "Volt") (strL "Voltx") [] [] []).2.2 (by decide) (by decide)

/-! ## Claim C7 -/

/-- Claim C7 (code bug): `Current.fetch` stores the raw milliamp integer
`1500` with no division, while `Current.set` on the same raw value yields
`3/2` (1.5 A): the fetch path does not apply the documented
millis-to-base-unit conversion. -/
theorem c7_current_fetch_divergence :
    Current.fetch (strL "Max Charge Curr") none [strL "Max Charge Curr : 1500mA"] =
      some (some 1500, []) ∧
    Current.set (strL "1500mA") 1000 = some (3 / 2 : ℚ) ∧
    ((1500 : ℚ) ≠ (3 / 2 : ℚ)) := by
  refine ⟨by decide, ?_, by norm_num⟩
  have h1 : pyInt (strL "1500mA") = none := by decide
  have h2 : pyInt (pyDelete (strL "mA") (strL "1500mA")) = some 1500 := by decide
  simp [Current.set, h1, h2]
  norm_num

/-! ## Claim C9 -/

/-- Counterexample for C9: on `PylontechConsole`, after a connect and a
successful disconnect the reader is still set, so a second `disconnect()`
dereferences the cleared writer and raises, instead of being a no-op. -/
theorem c9_disconnect_counterexample :
    consoleDisconnect (consoleConnect ⟨none, none⟩) = some ⟨some (), none⟩ ∧
    consoleDisconnect ⟨some (), none⟩ = none ∧
    (none : Option ConsoleSt) ≠ some ⟨some (), none⟩ := by
  refine ⟨rfl, rfl, by decide⟩

/-- Claim C9 as amended: `PylontechBMS.disconnect` is a no-op without an
open writer, is idempotent from every state, and clears both handles when a
writer is open; `PylontechConsole.disconnect` is a no-op only when the
reader is unset, clears only the writer, and a second call after
disconnecting an open connection raises. -/
theorem c9_disconnect_amended (st : PyBMS) (cst : ConsoleSt) :
    (st.writer = none → bmsDisconnect st = st) ∧
    bmsDisconnect (bmsDisconnect st) = bmsDisconnect st ∧
    (st.writer.isSome = true →
      (bmsDisconnect st).reader = none ∧ (bmsDisconnect st).writer = none) ∧
    (cst.reader = none → consoleDisconnect cst = some cst) ∧
    (cst.reader.isSome = true → cst.writer.isSome = true →
      consoleDisconnect cst = some ⟨cst.reader, none⟩ ∧
      consoleDisconnect ⟨cst.reader, none⟩ = none) := by
  obtain ⟨r, w, b⟩ := st
  obtain ⟨cr, cw⟩ := cst
  refine ⟨?_, ?_, ?_, ?_, ?_⟩
  · intro h
    simp only at h
    subst h
    simp [bmsDisconnect]
  · cases w <;> simp [bmsDisconnect]
  · intro h
    cases w
    · simp at h
    · simp [bmsDisconnect]
  · intro h
    simp only at h
    subst h
    simp [consoleDisconnect]
  · intro h1 h2
    cases cr
    · simp at h1
    · cases cw
      · simp at h2
      · simp [consoleDisconnect]

/-- Witness for C9 at concrete states: a fresh `PylontechBMS` ignores
`disconnect()`, and a connected `PylontechConsole` raises on the second
`disconnect()`. -/
theorem c9_disconnect_witness :
    bmsDisconnect ⟨none, none, []⟩ = ⟨none, none, []⟩ ∧
    consoleDisconnect ⟨some (), some ()⟩ = some ⟨some (), none⟩ ∧
    consoleDisconnect ⟨some (), none⟩ = none := by
  refine ⟨(c9_disconnect_amended ⟨none, none, []⟩ ⟨none, none⟩).1 rfl, ?_, ?_⟩
  · exact ((c9_disconnect_amended ⟨none, none, []⟩ ⟨some (), some ()⟩).2.2.2.2 rfl rfl).1
  · exact ((c9_disconnect_amended ⟨none, none, []⟩ ⟨some (), some ()⟩).2.2.2.2 rfl rfl).2

/-! ## Claim C1 -/

lemma runChunk_append (st : RState) (a b : List Nat) :
    runChunk st (a ++ b) = runChunk (runChunk st a) b := by
  simp [runChunk, List.foldl_append]

lemma runChunk_pure : ∀ (l : List Nat), (∀ b ∈ l, b ≠ 13 ∧ b ≠ 10) →
    ∀ (ls : List (List Char)) (cur : List Nat), runChunk ⟨ls, cur⟩ l = ⟨ls, cur ++ l⟩ := by
  intro l
  induction l with
  | nil => intro _ ls cur; simp [runChunk]
  | cons b bs ih =>
    intro h ls cur
    have hb := h b (List.mem_cons_self _ _)
    have hstep : stepByte ⟨ls, cur⟩ b = ⟨ls, cur ++ [b]⟩ := by
      simp [stepByte, hb.1, hb.2]
    show runChunk (stepByte ⟨ls, cur⟩ b) bs = _
    rw [hstep, ih (fun x hx => h x (List.mem_cons_of_mem _ hx)) ls (cur ++ [b])]
    simp

lemma runChunk_sep (t : List Nat) (hsep : isSep t) (ls : List (List Char))
    (cur : List Nat) (hcur : cur ≠ []) :
    runChunk ⟨ls, cur⟩ t = ⟨emit ls cur, []⟩ := by
  rcases hsep with h | h | h <;> subst h <;>
    simp [runChunk, List.foldl_cons, List.foldl_nil, stepByte, hcur, emit]

lemma runChunk_enc : ∀ (ps : List (List Nat × List Nat)),
    (∀ p ∈ ps, p.1 ≠ [] ∧ (∀ b ∈ p.1, b ≠ 13 ∧ b ≠ 10 ∧ b < 128) ∧
      isPre promptBytes p.1 = false ∧ isSep p.2) →
    ∀ ls, runChunk ⟨ls, []⟩ (encodeResp ps) =
      ⟨ls ++ ((ps.map fun p => asciiDecode p.1).filter fun l => decide (l ∉ endPrompts)), []⟩ := by
  intro ps
  induction ps with
  | nil => intro _ ls; simp [encodeResp, runChunk]
  | cons p ps ih =>
    intro h ls
    have hp := h p (List.mem_cons_self _ _)
    have hps := fun q hq => h q (List.mem_cons_of_mem _ hq)
    have henc : encodeResp (p :: ps) = (p.1 ++ p.2) ++ encodeResp ps := by
      simp [encodeResp]
    rw [henc, runChunk_append, runChunk_append]
    rw [runChunk_pure p.1 (fun b hb => ⟨(hp.2.1 b hb).1, (hp.2.1 b hb).2.1⟩) ls []]
    simp only [List.nil_append]
    rw [runChunk_sep p.2 hp.2.2.2 ls p.1 hp.1]
    rw [ih hps (emit ls p.1)]
    rw [List.map_cons, List.filter_cons]
    by_cases hmem : asciiDecode p.1 ∈ endPrompts
    · simp [emit, hmem]
    · simp [emit, hmem]

lemma runChunk_final (ps : List (List Nat × List Nat))
    (h : ∀ p ∈ ps, p.1 ≠ [] ∧ (∀ b ∈ p.1, b ≠ 13 ∧ b ≠ 10 ∧ b < 128) ∧
      isPre promptBytes p.1 = false ∧ isSep p.2) :
    runChunk ⟨[], []⟩ (encodeResp ps ++ promptBytes) =
      ⟨(ps.map fun p => asciiDecode p.1).filter fun l => decide (l ∉ endPrompts),
        promptBytes⟩ := by
  rw [runChunk_append, runChunk_enc ps h [], runChunk_pure promptBytes (by decide) _ []]
  simp

lemma laPre_append_case {α : Type} : ∀ (a q b : List α),
    laPre q (a ++ b) → laPre q a ∨ ∃ q2, q = a ++ q2 ∧ laPre q2 b := by
  intro a
  induction a with
  | nil =>
    intro q b h
    right
    exact ⟨q, rfl, h⟩
  | cons x xs ih =>
    intro q b h
    cases q with
    | nil => left; exact ⟨x :: xs, rfl⟩
    | cons y ys =>
      obtain ⟨r, hr⟩ := h
      rw [List.cons_append, List.cons_append] at hr
      injection hr with h1 h2
      subst h1
      rcases ih ys b ⟨r, h2⟩ with ⟨r2, hr2⟩ | ⟨q2, hq2, hb⟩
      · left
        exact ⟨r2, by rw [List.cons_append, hr2]⟩
      · right
        exact ⟨q2, by rw [hq2, List.cons_append], hb⟩

lemma laPre_mem {α : Type} {q s : List α} (h : laPre q s) : ∀ b ∈ q, b ∈ s := by
  obtain ⟨r, rfl⟩ := h
  intro b hb
  exact List.mem_append_left _ hb

lemma isPre_iff {α : Type} [DecidableEq α] : ∀ (p s : List α), isPre p s = true ↔ laPre p s := by
  intro p
  induction p with
  | nil =>
    intro s
    simp only [isPre, laPre, true_iff]
    exact ⟨s, rfl⟩
  | cons x xs ih =>
    intro s
    cases s with
    | nil =>
      constructor
      · intro hh
        exact absurd hh (by simp [isPre])
      · rintro ⟨r, hr⟩
        rw [List.cons_append] at hr
        exact absurd hr (by simp)
    | cons y ys =>
      rw [show isPre (x :: xs) (y :: ys) = if x = y then isPre xs ys else false from rfl]
      by_cases hxy : x = y
      · subst hxy
        rw [if_pos rfl, ih ys]
        constructor
        · rintro ⟨r, rfl⟩
          exact ⟨r, rfl⟩
        · rintro ⟨r, hr⟩
          rw [List.cons_append] at hr
          injection hr with h1 h2
          exact ⟨r, h2⟩
      · rw [if_neg hxy]
        constructor
        · intro hh
          exact absurd hh (by simp)
        · rintro ⟨r, hr⟩
          rw [List.cons_append] at hr
          injection hr with h1 h2
          exact absurd h1 hxy

lemma no_early_stop_enc : ∀ (ps : List (List Nat × List Nat)),
    (∀ p ∈ ps, p.1 ≠ [] ∧ (∀ b ∈ p.1, b ≠ 13 ∧ b ≠ 10 ∧ b < 128) ∧
      isPre promptBytes p.1 = false ∧ isSep p.2) →
    ∀ q, laPre q (encodeResp ps) → ∀ ls, (runChunk ⟨ls, []⟩ q).cur ≠ promptBytes := by
  intro ps
  induction ps with
  | nil =>
    intro _ q hq ls
    obtain ⟨r, hr⟩ := hq
    rw [show encodeResp [] = [] from rfl] at hr
    rw [(List.append_eq_nil.mp hr).1]
    intro hcontra
    exact absurd (show ([] : List Nat) = promptBytes from hcontra) (by decide)
  | cons p ps ih =>
    intro h q hq ls
    have hp := h p (List.mem_cons_self _ _)
    have hps := fun x hx => h x (List.mem_cons_of_mem _ hx)
    have hraw : ∀ b ∈ p.1, b ≠ 13 ∧ b ≠ 10 :=
      fun b hb => ⟨(hp.2.1 b hb).1, (hp.2.1 b hb).2.1⟩
    have henc : encodeResp (p :: ps) = p.1 ++ (p.2 ++ encodeResp ps) := by
      simp [encodeResp]
    rw [henc] at hq
    rcases laPre_append_case p.1 q _ hq with hca | ⟨q2, rfl, hq2⟩
    · have hnoterm : ∀ b ∈ q, b ≠ 13 ∧ b ≠ 10 := fun b hb => hraw b (laPre_mem hca b hb)
      rw [runChunk_pure q hnoterm ls []]
      intro hcontra
      simp only [List.nil_append] at hcontra
      have : isPre promptBytes p.1 = true := (isPre_iff _ _).mpr (hcontra ▸ hca)
      rw [hp.2.2.1] at this
      exact Bool.false_ne_true this
    · rcases laPre_append_case p.2 q2 _ hq2 with hcb | ⟨q3, rfl, hq3⟩
      · rw [runChunk_append, runChunk_pure p.1 hraw ls [], List.nil_append]
        rcases hp.2.2.2 with hsep | hsep | hsep
        · rw [hsep] at hcb
          obtain ⟨r, hr⟩ := hcb
          cases q2 with
          | nil =>
            intro hcontra
            have hpp : isPre promptBytes p.1 = true :=
              (isPre_iff _ _).mpr ⟨[], by rw [List.append_nil]; exact hcontra.symm⟩
            rw [hp.2.2.1] at hpp
            exact Bool.false_ne_true hpp
          | cons z zs =>
            rw [List.cons_append] at hr
            injection hr with h1 h2
            subst h1
            rw [(List.append_eq_nil.mp h2).1]
            rw [runChunk_sep [10] (Or.inl rfl) ls p.1 hp.1]
            exact (by decide : ([] : List Nat) ≠ promptBytes)
        · rw [hsep] at hcb
          obtain ⟨r, hr⟩ := hcb
          cases q2 with
          | nil =>
            intro hcontra
            have hpp : isPre promptBytes p.1 = true :=
              (isPre_iff _ _).mpr ⟨[], by rw [List.append_nil]; exact hcontra.symm⟩
            rw [hp.2.2.1] at hpp
            exact Bool.false_ne_true hpp
          | cons z zs =>
            rw [List.cons_append] at hr
            injection hr with h1 h2
            subst h1
            rw [(List.append_eq_nil.mp h2).1]
            rw [runChunk_sep [13] (Or.inr (Or.inl rfl)) ls p.1 hp.1]
            exact (by decide : ([] : List Nat) ≠ promptBytes)
        · rw [hsep] at hcb
          obtain ⟨r, hr⟩ := hcb
          cases q2 with
          | nil =>
            intro hcontra
            have hpp : isPre promptBytes p.1 = true :=
              (isPre_iff _ _).mpr ⟨[], by rw [List.append_nil]; exact hcontra.symm⟩
            rw [hp.2.2.1] at hpp
            exact Bool.false_ne_true hpp
          | cons z zs =>
            rw [List.cons_append] at hr
            injection hr with h1 h2
            subst h1
            cases zs with
            | nil =>
              rw [runChunk_sep [13] (Or.inr (Or.inl rfl)) ls p.1 hp.1]
              exact (by decide : ([] : List Nat) ≠ promptBytes)
            | cons w ws =>
              rw [List.cons_append] at h2
              injection h2 with h3 h4
              subst h3
              rw [(List.append_eq_nil.mp h4).1]
              rw [runChunk_sep [13, 10] (Or.inr (Or.inr rfl)) ls p.1 hp.1]
              exact (by decide : ([] : List Nat) ≠ promptBytes)
      · rw [show p.1 ++ (p.2 ++ q3) = (p.1 ++ p.2) ++ q3 from by rw [List.append_assoc]]
        rw [runChunk_append, runChunk_append, runChunk_pure p.1 hraw ls [],
          List.nil_append, runChunk_sep p.2 hp.2.2.2 ls p.1 hp.1]
        exact ih hps q3 hq3 (emit ls p.1)

lemma no_early_stop_input (ps : List (List Nat × List Nat))
    (h : ∀ p ∈ ps, p.1 ≠ [] ∧ (∀ b ∈ p.1, b ≠ 13 ∧ b ≠ 10 ∧ b < 128) ∧
      isPre promptBytes p.1 = false ∧ isSep p.2) :
    ∀ q, laPre q (encodeResp ps ++ promptBytes) → q ≠ encodeResp ps ++ promptBytes →
      (runChunk ⟨[], []⟩ q).cur ≠ promptBytes := by
  intro q hq hne
  rcases laPre_append_case (encodeResp ps) q promptBytes hq with hca | ⟨q2, rfl, hq2⟩
  · exact no_early_stop_enc ps h q hca []
  · rw [runChunk_append, runChunk_enc ps h []]
    have hnoterm : ∀ b ∈ q2, b ≠ 13 ∧ b ≠ 10 := by
      intro b hb
      have hall : ∀ b ∈ promptBytes, b ≠ 13 ∧ b ≠ 10 := by decide
      exact hall b (laPre_mem hq2 b hb)
    rw [runChunk_pure q2 hnoterm _ []]
    intro hcontra
    simp only [List.nil_append] at hcontra
    exact hne (by rw [hcontra])

lemma readFrame_run : ∀ (chunks : List (List Nat)) (pre input : List Nat),
    pre ++ chunks.flatten = input →
    (∀ q, laPre q input → q ≠ input → (runChunk ⟨[], []⟩ q).cur ≠ promptBytes) →
    (runChunk ⟨[], []⟩ input).cur = promptBytes →
    readFrame (runChunk ⟨[], []⟩ pre) chunks = runChunk ⟨[], []⟩ input := by
  intro chunks
  induction chunks with
  | nil =>
    intro pre input hflat _ _
    rw [List.flatten_nil, List.append_nil] at hflat
    subst hflat
    rfl
  | cons c cs ih =>
    intro pre input hflat hstop hfinal
    rw [List.flatten_cons] at hflat
    have hunfold : readFrame (runChunk ⟨[], []⟩ pre) (c :: cs) =
        if (runChunk ⟨[], []⟩ pre).cur = promptBytes then runChunk ⟨[], []⟩ pre
        else readFrame (runChunk (runChunk ⟨[], []⟩ pre) c) cs := rfl
    by_cases hpre : pre = input
    · subst hpre
      rw [hunfold, if_pos hfinal]
    · have hcur := hstop pre ⟨c ++ cs.flatten, hflat⟩ hpre
      rw [hunfold, if_neg hcur, ← runChunk_append]
      exact ih (pre ++ c) input (by rw [List.append_assoc]; exact hflat) hstop hfinal

/-- Counterexample for C1: a response whose first line is the six bytes
`pylon>` (LF-terminated) followed by the line `a` and the prompt satisfies
the claim's hypotheses (non-empty ASCII lines, mixed terminators, trailing
prompt token), yet with a chunk boundary right after the first six bytes
the reading loop stops early and returns no lines at all instead of the two
original lines. -/
theorem c1_frame_reader_counterexample :
    [[112, 121, 108, 111, 110, 62], [10, 97, 10, 112, 121, 108, 111, 110, 62]].flatten =
      encodeResp [([112, 121, 108, 111, 110, 62], [10]), ([97], [10])] ++ promptBytes ∧
    (∀ p ∈ [([112, 121, 108, 111, 110, 62], [10]), ([97], [10])],
      p.1 ≠ [] ∧ (∀ b ∈ p.1, b ≠ 13 ∧ b ≠ 10 ∧ b < 128) ∧ isSep p.2) ∧
    (readFrame ⟨[], []⟩
      [[112, 121, 108, 111, 110, 62], [10, 97, 10, 112, 121, 108, 111, 110, 62]]).lines = [] ∧
    (([([112, 121, 108, 111, 110, 62], [10]), ([97], [10])].map
        fun p => asciiDecode p.1).filter fun l => decide (l ∉ endPrompts)) =
      [strL "pylon>", strL "a"] ∧
    ([] : List (List Char)) ≠ [strL "pylon>", strL "a"] :=
  ⟨by decide, by decide, by decide, by decide, by decide⟩

/-- Claim C1 as amended: for a response built from non-empty ASCII lines
free of terminator bytes, PROVIDED NO LINE HAS THE PROMPT TOKEN `pylon>` AS
A PREFIX, joined by any mix of LF / CR / CRLF terminators and followed by
the prompt token, the reading loop run over any chunking of the byte stream
returns exactly the original lines in order with the two sentinel lines
removed. -/
theorem c1_frame_reader_amended (ps : List (List Nat × List Nat)) (chunks : List (List Nat))
    (hgood : ∀ p ∈ ps, p.1 ≠ [] ∧ (∀ b ∈ p.1, b ≠ 13 ∧ b ≠ 10 ∧ b < 128) ∧
      isPre promptBytes p.1 = false ∧ isSep p.2)
    (hchunks : chunks.flatten = encodeResp ps ++ promptBytes) :
    (readFrame ⟨[], []⟩ chunks).lines =
      (ps.map fun p => asciiDecode p.1).filter fun l => decide (l ∉ endPrompts) := by
  have hfinal := runChunk_final ps hgood
  have hrun := readFrame_run chunks [] (encodeResp ps ++ promptBytes)
    (by simpa using hchunks) (no_early_stop_input ps hgood) (by rw [hfinal])
  have hinit : runChunk ⟨[], []⟩ ([] : List Nat) = (⟨[], []⟩ : RState) := rfl
  rw [hinit] at hrun
  rw [hrun, hfinal]

/-- Witness for C1: one LF+CR-terminated two-byte line `ab` followed by the
prompt, fed as a single chunk, is read back as the single line `ab`. -/
theorem c1_frame_reader_witness :
    (readFrame ⟨[], []⟩ [[97, 98, 13, 10, 112, 121, 108, 111, 110, 62]]).lines =
      [strL "ab"] :=
  (c1_frame_reader_amended [([97, 98], [13, 10])]
    [[97, 98, 13, 10, 112, 121, 108, 111, 110, 62]] (by decide) (by decide)).trans
    (by decide)

/-! ## Claim C3 -/

lemma bmuLoop_spec : ∀ (ls : List (List Char)) (m p res1 res2 : List (List Char)),
    bmuLoop ls (m, p) = some (res1, res2) →
    ∃ mt pt,
      optMapM (fun l => (pySplitWs l).get? 2)
        (ls.filter fun l => isPre (strL "Module") l) = some mt ∧
      optMapM (fun l => (pySplitWs l).get? 2)
        (ls.filter fun l => isPre (strL "PCBA") l) = some pt ∧
      res1 = mt.reverse ++ m ∧ res2 = pt.reverse ++ p := by
  intro ls
  induction ls with
  | nil =>
    intro m p r1 r2 h
    simp only [bmuLoop, Option.some.injEq, Prod.mk.injEq] at h
    exact ⟨[], [], by simp [optMapM], by simp [optMapM], h.1.symm, h.2.symm⟩
  | cons l ls ih =>
    intro m p r1 r2 h
    simp only [bmuLoop, obind_eq_some] at h
    obtain ⟨acc1, hacc1, acc2, hacc2, hrec⟩ := h
    by_cases hm : isPre (strL "Module") l
    · rw [if_pos hm, obind_eq_some] at hacc1
      obtain ⟨tm, htm, hacc1⟩ := hacc1
      rw [Option.some.injEq] at hacc1
      subst hacc1
      by_cases hp : isPre (strL "PCBA") l
      · rw [if_pos hp, obind_eq_some] at hacc2
        obtain ⟨tp, htp, hacc2⟩ := hacc2
        rw [Option.some.injEq] at hacc2
        subst hacc2
        obtain ⟨mt, pt, h1, h2, h3, h4⟩ := ih (tm :: m) (tp :: p) r1 r2 hrec
        refine ⟨tm :: mt, tp :: pt, ?_, ?_, ?_, ?_⟩
        · rw [List.filter_cons_of_pos (by simpa using hm)]
          simp only [optMapM, obind_eq_some]
          exact ⟨tm, htm, mt, h1, rfl⟩
        · rw [List.filter_cons_of_pos (by simpa using hp)]
          simp only [optMapM, obind_eq_some]
          exact ⟨tp, htp, pt, h2, rfl⟩
        · rw [h3]; simp
        · rw [h4]; simp
      · rw [if_neg hp, Option.some.injEq] at hacc2
        subst hacc2
        obtain ⟨mt, pt, h1, h2, h3, h4⟩ := ih (tm :: m) p r1 r2 hrec
        refine ⟨tm :: mt, pt, ?_, ?_, ?_, ?_⟩
        · rw [List.filter_cons_of_pos (by simpa using hm)]
          simp only [optMapM, obind_eq_some]
          exact ⟨tm, htm, mt, h1, rfl⟩
        · rw [List.filter_cons_of_neg (by simpa using hp)]
          exact h2
        · rw [h3]; simp
        · exact h4
    · rw [if_neg hm, Option.some.injEq] at hacc1
      subst hacc1
      by_cases hp : isPre (strL "PCBA") l
      · rw [if_pos hp, obind_eq_some] at hacc2
        obtain ⟨tp, htp, hacc2⟩ := hacc2
        rw [Option.some.injEq] at hacc2
        subst hacc2
        obtain ⟨mt, pt, h1, h2, h3, h4⟩ := ih m (tp :: p) r1 r2 hrec
        refine ⟨mt, tp :: pt, ?_, ?_, ?_, ?_⟩
        · rw [List.filter_cons_of_neg (by simpa using hm)]
          exact h1
        · rw [List.filter_cons_of_pos (by simpa using hp)]
          simp only [optMapM, obind_eq_some]
          exact ⟨tp, htp, pt, h2, rfl⟩
        · exact h3
        · rw [h4]; simp
      · rw [if_neg hp, Option.some.injEq] at hacc2
        subst hacc2
        obtain ⟨mt, pt, h1, h2, h3, h4⟩ := ih m p r1 r2 hrec
        refine ⟨mt, pt, ?_, ?_, h3, h4⟩
        · rw [List.filter_cons_of_neg (by simpa using hm)]
          exact h1
        · rw [List.filter_cons_of_neg (by simpa using hp)]
          exact h2

/-- Counterexample for C3: on the specification's own example lines the
third whitespace-separated token of each `Module` line is the bare `:`
character, so the parsed module list is `[":", ":", ":"]` rather than
`[SERIAL_A, SERIAL_B, SERIAL_C]`. -/
theorem c3_module_scan_counterexample :
    (infoCommand exModuleLines).map (fun i => i.bmu_modules) =
      some [strL ":", strL ":", strL ":"] ∧
    [strL ":", strL ":", strL ":"] ≠ [strL "SERIAL_A", strL "SERIAL_B", strL "SERIAL_C"] :=
  ⟨by decide, by decide⟩

/-- Claim C3 as amended: `bmu_modules` (resp. `bmu_pcbas`) is the reverse of
the third whitespace tokens of the `Module` (resp. `PCBA`) lines left after
the fetch phase, in stream order; on the example lines `"Module 1 :
SERIAL_C"` etc. that third token is `":"`, so the result is `[":", ":",
":"]` (the serial would be the fourth token). -/
theorem c3_module_scan_amended (lines : List (List Char)) (r : Info) :
    infoCommand lines = some r →
    (∃ hdr rest mt pt,
      infoFetchPhase lines = some (hdr, rest) ∧
      optMapM (fun l => (pySplitWs l).get? 2)
        (rest.filter fun l => isPre (strL "Module") l) = some mt ∧
      optMapM (fun l => (pySplitWs l).get? 2)
        (rest.filter fun l => isPre (strL "PCBA") l) = some pt ∧
      r.bmu_modules = mt.reverse ∧ r.bmu_pcbas = pt.reverse) ∧
    (infoCommand exModuleLines).map (fun i => i.bmu_modules) =
      some [strL ":", strL ":", strL ":"] := by
  intro h
  constructor
  · simp only [infoCommand, obind_eq_some, Option.some.injEq] at h
    obtain ⟨hr, hhr, mp, hmp, hr2⟩ := h
    subst hr2
    obtain ⟨mt, pt, h1, h2, h3, h4⟩ := bmuLoop_spec hr.2 [] [] mp.1 mp.2 hmp
    exact ⟨hr.1, hr.2, mt, pt, hhr, h1, h2, by simpa using h3, by simpa using h4⟩
  · decide

/-- Witness for C3: the amended claim instantiated on the example module
lines and their parsed record. -/
theorem c3_module_scan_witness :
    (∃ hdr rest mt pt,
      infoFetchPhase exModuleLines = some (hdr, rest) ∧
      optMapM (fun l => (pySplitWs l).get? 2)
        (rest.filter fun l => isPre (strL "Module") l) = some mt ∧
      optMapM (fun l => (pySplitWs l).get? 2)
        (rest.filter fun l => isPre (strL "PCBA") l) = some pt ∧
      exInfoRec.bmu_modules = mt.reverse ∧ exInfoRec.bmu_pcbas = pt.reverse) ∧
    (infoCommand exModuleLines).map (fun i => i.bmu_modules) =
      some [strL ":", strL ":", strL ":"] :=
  c3_module_scan_amended exModuleLines exInfoRec (Option.some_get (by decide)).symm

/-! ## Claim C2 -/

lemma unitLoop_eq (nr : Int) : ∀ (ls : List (List Char)) (acc : List UnitVals),
    unitLoop nr ls acc =
      obind (optMapM (unitValues nr) ls) fun rows => some (rows.reverse ++ acc) := by
  intro ls
  induction ls with
  | nil => intro acc; simp [unitLoop, optMapM, obind]
  | cons l ls ih =>
    intro acc
    simp only [unitLoop, optMapM]
    cases unitValues nr l with
    | none => simp [obind]
    | some v =>
      simp only [obind]
      rw [ih (v :: acc)]
      cases optMapM (unitValues nr) ls with
      | none => simp [obind]
      | some rows => simp [obind]

lemma optMapM_get? {α β : Type} (f : α → Option β) :
    ∀ (xs : List α) (ys : List β), optMapM f xs = some ys →
      ys.length = xs.length ∧
      ∀ k y, ys.get? k = some y → ∃ x, xs.get? k = some x ∧ f x = some y := by
  intro xs
  induction xs with
  | nil =>
    intro ys h
    simp only [optMapM, Option.some.injEq] at h
    subst h
    simp
  | cons x xs ih =>
    intro ys h
    simp only [optMapM, obind_eq_some, Option.some.injEq] at h
    obtain ⟨y, hy, ys2, hys2, hys⟩ := h
    subst hys
    have hr := ih ys2 hys2
    constructor
    · simp [hr.1]
    · intro k z hz
      cases k with
      | zero =>
        rw [List.get?_cons_zero, Option.some.injEq] at hz
        subst hz
        exact ⟨x, List.get?_cons_zero, hy⟩
      | succ k =>
        rw [List.get?_cons_succ] at hz
        obtain ⟨w, hw1, hw2⟩ := hr.2 k z hz
        exact ⟨w, by rw [List.get?_cons_succ, hw1], hw2⟩

lemma unitValues_position {nr : Int} {l : List Char} {v : UnitVals}
    (h : unitValues nr l = some v) :
    ∃ c0 r, (pySplitWs l).get? 0 = some c0 ∧ pyInt c0 = some r ∧ v.position = nr - r := by
  simp only [unitValues, obind_eq_some, Option.some.injEq] at h
  obtain ⟨c0, hc0, r, hr, c1, -, v1, -, c2, -, v2, -, c3, -, t3, -, c4, -, t4, -, c5, -, t5, -,
    c6, -, v6, -, c7, -, v7, -, c8, -, c9, -, c10, -, c11, -, p11, -, c12, -, a12, -,
    c14, -, p14, -, c15, -, w15, -, hv⟩ := h
  subst hv
  exact ⟨c0, r, hc0, hr, rfl⟩

/-- Counterexample for C2: a `unit` response with exactly 2 module rows
(4 lines total) whose raw position tokens are 0 and 1 is parsed with final
positions 3 and 2 — not 1 and 0 as the claim states — because the code uses
`nr_of_units = len(lines) - 1`, which counts the two header lines. -/
theorem c2_unit_position_counterexample :
    (unitCmd exUnitLines).map (fun u => u.values.map fun v => v.position) = some [2, 3] ∧
    ((3 : Int) ≠ 1 ∧ (2 : Int) ≠ 0) :=
  ⟨by decide, by decide, by decide⟩

/-- Claim C2 as amended: the row at reversed index `k` of the parsed value
list (stream row `len - 1 - k`) has final position `(len(lines) - 1) -
rawPosition`, i.e. `module_count + 1 - rawPosition`, not
`module_count - 1 - rawPosition`. -/
theorem c2_unit_position_amended (lines : List (List Char)) (u : UnitCmd) :
    unitCmd lines = some u →
    u.values.length = (lines.drop 2).length ∧
    ∀ k v, u.values.get? k = some v →
      ∃ line c0 r, (lines.drop 2).get? (u.values.length - 1 - k) = some line ∧
        (pySplitWs line).get? 0 = some c0 ∧ pyInt c0 = some r ∧
        v.position = (lines.length : Int) - 1 - r := by
  intro h
  simp only [unitCmd, obind_eq_some, Option.some.injEq] at h
  obtain ⟨vs, hvs, hu⟩ := h
  subst hu
  rw [unitLoop_eq, obind_eq_some] at hvs
  obtain ⟨rows, hrows, hsome⟩ := hvs
  simp only [List.append_nil, Option.some.injEq] at hsome
  subst hsome
  have hopt := optMapM_get? (unitValues ((lines.length : Int) - 1)) (lines.drop 2) rows hrows
  constructor
  · simp [hopt.1]
  · intro k v hk
    have hklt : k < rows.reverse.length := (List.get?_eq_some.mp hk).1
    rw [show (UnitCmd.mk rows.reverse).values = rows.reverse from rfl] at hk ⊢
    rw [List.get?_reverse (by simpa using hklt)] at hk
    obtain ⟨line, hline, hval⟩ := hopt.2 (rows.length - 1 - k) v hk
    obtain ⟨c0, r, hc0, hr, hpos⟩ := unitValues_position hval
    refine ⟨line, c0, r, ?_, hc0, hr, by rw [hpos]⟩
    rw [List.length_reverse]
    exact hline

/-- Witness for C2 on the sample 4-line `unit` response: the amended
position formula holds for the parsed record's first value. -/
theorem c2_unit_position_witness :
    exUnit.values.length = (exUnitLines.drop 2).length ∧
    ∃ line c0 r, (exUnitLines.drop 2).get? (exUnit.values.length - 1 - 0) = some line ∧
      (pySplitWs line).get? 0 = some c0 ∧ pyInt c0 = some r ∧
      exUnitVal.position = (exUnitLines.length : Int) - 1 - r := by
  have h := c2_unit_position_amended exUnitLines exUnit (Option.some_get (by decide)).symm
  exact ⟨h.1, h.2 0 exUnitVal (Option.some_get (by decide)).symm⟩

/-! ## Claim C8 -/

lemma batValues_unit {u : Nat} {l : List Char} {v : BatCell}
    (h : batValues u l = some v) : v.unit = u := by
  simp only [batValues, obind_eq_some, Option.some.injEq] at h
  obtain ⟨c1, -, v1, -, c2, -, v2, -, c3, -, t3, -, c4, -, c5, -, c6, -, p6, -, c7, -, a7, -,
    c8, -, p8, -, c9, -, w9, -, c10, -, hv⟩ := h
  subst hv
  rfl

lemma batRows_spec : ∀ (ls : List (List Char)) (c : Nat) (res : List BatCell),
    batRows ls c = some res →
    res.length = ls.length ∧
    ∀ k v, res.get? k = some v → v.unit = (c - k) / 15 := by
  intro ls
  induction ls with
  | nil =>
    intro c res h
    simp only [batRows, Option.some.injEq] at h
    subst h
    simp
  | cons l ls ih =>
    intro c res h
    simp only [batRows, obind_eq_some, Option.some.injEq] at h
    obtain ⟨v, hv, rest, hrest, hres⟩ := h
    subst hres
    have hr := ih (c - 1) rest hrest
    constructor
    · simp [hr.1]
    · intro k w hk
      cases k with
      | zero =>
        rw [List.get?_cons_zero, Option.some.injEq] at hk
        subst hk
        simpa using batValues_unit hv
      | succ k =>
        rw [List.get?_cons_succ] at hk
        have := hr.2 k w hk
        rw [this]
        congr 1
        omega

/-- Claim C8: in a `bat` response of length `L` (post framing-validation),
the cell parsed from the row at offset `k` among the rows starting at line
index 7 is assigned owning module index `(L - 8 - k) / 15`, truncated. -/
theorem c8_bat_cell_unit (lines : List (List Char)) (b : Bat) :
    batCommand lines = some b →
    b.values.length = lines.length - 7 ∧
    ∀ k v, b.values.get? k = some v → v.unit = (lines.length - 8 - k) / 15 := by
  intro h
  simp only [batCommand, obind_eq_some, Option.some.injEq] at h
  obtain ⟨l1, -, a1, -, l2, -, a2, -, l3, -, a3, -, l4, -, a4, -, l5, -, a5, -,
    vals, hvals, hb⟩ := h
  subst hb
  have hs := batRows_spec (lines.drop 7) (lines.length - 8) vals hvals
  refine ⟨?_, ?_⟩
  · rw [show (Bat.mk a1 a2 a3 a4 a5 vals).values = vals from rfl, hs.1, List.length_drop]
  · intro k v hk
    exact hs.2 k v hk

/-- Witness for C8 on the sample `bat` body (8 lines, one cell row): the
row count and the first cell's module index follow the formula. -/
theorem c8_bat_cell_unit_witness :
    exBat.values.length = exBatBody.length - 7 ∧
    exBatCell.unit = (exBatBody.length - 8 - 0) / 15 := by
  have h := c8_bat_cell_unit exBatBody exBat (Option.some_get (by decide)).symm
  exact ⟨h.1, h.2 0 exBatCell (Option.some_get (by decide)).symm⟩

/-! ## Claim C10 -/

/-- Claim C10: a successful `info()` call stores the parsed module-serial
list into the session's `bmus` attribute, while `pwr()`, `unit()` and
`bat()` leave the session state entirely unchanged. -/
theorem c10_info_bmus (st st' : PyBMS) (frame : List (List Char)) :
    (∀ r : Info, infoCall st frame = some (r, st') → st'.bmus = r.bmu_modules) ∧
    (∀ r : Pwr, pwrCall st frame = some (r, st') → st' = st) ∧
    (∀ r : UnitCmd, unitCall st frame = some (r, st') → st' = st) ∧
    (∀ r : Bat, batCall st frame = some (r, st') → st' = st) := by
  refine ⟨?_, ?_, ?_, ?_⟩ <;> intro r h
  · obtain ⟨a, -, ha⟩ := Option.map_eq_some'.mp h
    injection ha with h1 h2
    subst h1
    subst h2
    rfl
  · obtain ⟨a, -, ha⟩ := Option.map_eq_some'.mp h
    injection ha with h1 h2
    exact h2.symm
  · obtain ⟨a, -, ha⟩ := Option.map_eq_some'.mp h
    injection ha with h1 h2
    exact h2.symm
  · obtain ⟨a, -, ha⟩ := Option.map_eq_some'.mp h
    injection ha with h1 h2
    exact h2.symm

/-- Witness for C10 on the sample frames: the post-`info()` state's `bmus`
equals the record's module list, and the other three wrappers return the
state they were given. -/
theorem c10_info_bmus_witness :
    exInfoPair.2.bmus = exInfoPair.1.bmu_modules ∧
    exPwrPair.2 = exSt ∧ exUnitPair.2 = exSt ∧ exBatPair.2 = exSt := by
  refine ⟨?_, ?_, ?_, ?_⟩
  · exact (c10_info_bmus exSt exInfoPair.2 exInfoFrame).1 exInfoPair.1
      (Option.some_get (by decide)).symm
  · exact (c10_info_bmus exSt exPwrPair.2 exPwrFrame).2.1 exPwrPair.1
      (Option.some_get (by decide)).symm
  · exact (c10_info_bmus exSt exUnitPair.2 exUnitFrame).2.2.1 exUnitPair.1
      (Option.some_get (by decide)).symm
  · exact (c10_info_bmus exSt exBatPair.2 exBatFrame).2.2.2 exBatPair.1
      (Option.some_get (by decide)).symm

end PylontechSpec
